import Mathlib

/-!
Shallow embedding of `pcbnew/python/plugins/bga_wizard.py` (KiCad BGA
footprint wizard).

Lengths are rationals measured in KiCad internal units; `fromMM` / `toMM`
convert between millimetres and internal units.  `BuildThisFootprint` is
embedded as a function from the wizard's parameters to the sequence of pad
and drawing operations it issues against the host API; each drawing
operation is tagged with the layer that was active (set by `draw.SetLayer`)
when it was issued.

Host-side helpers that the plugin calls but whose code is not part of this
file (`PadArray.PadGridArray`, `PadArray.AlphaNameFromNumber`,
`FootprintWizardBase.CheckParam`, `pcbnew.PutOnGridMM`, unit conversion,
`GetTextSize`, polyline mirroring) are modelled from the specification; each
such definition carries a doc comment saying so.
-/

/-- Modelled from the spec: `pcbnew.FromMM` (host unit conversion, not under
src/) converts millimetres to internal units. -/
def fromMM (m : ℚ) : ℚ := m * 1000000

/-- Modelled from the spec: `pcbnew.ToMM` (host unit conversion, not under
src/) converts internal units to millimetres. -/
def toMM (x : ℚ) : ℚ := x / 1000000

/-- A 2-D point in internal units. -/
structure Point where
  x : ℚ
  y : ℚ
deriving DecidableEq

/-- The board layers the wizard draws on. -/
inductive Layer
  | F_Fab
  | F_SilkS
  | F_CrtYd
deriving DecidableEq

/-- One operation issued by the wizard against the host pad / drawing API or
against the footprint module under construction.  Drawing operations carry
the layer that was active when they were issued.  `fileAccess` is never
produced by the embedding; it stands for a read or write of persistent
storage, so that its absence from every trace is a statement. -/
inductive Cmd
  | pad (pos : Point) (name : String) (size : ℚ)
  | boxWithDiagonalAtCorner (layer : Layer) (x y w h bevel : ℚ)
  | polyline (layer : Layer) (pts : List Point)
  | circle (layer : Layer) (x y r : ℚ) (filled : Bool)
  | setLineThickness (t : ℚ)
  | box (layer : Layer) (thickness : ℚ) (x y w h : ℚ)
  | value (x y size : ℚ)
  | reference (x y size : ℚ)
  | text (x y size : ℚ) (s : String)
  | setAttributes
  | fileAccess
deriving DecidableEq

/-- The wizard's parameters (`GenerateParameterList`): lengths in internal
units, counts as naturals, `override` a boolean. -/
structure Params where
  pitch : ℚ
  pad_size : ℚ
  columns : ℕ
  rows : ℕ
  override : Bool
  pads_count : ℕ
  width : ℚ
  length : ℚ
  ball_size : ℚ
  margin : ℚ
  bevel : ℚ
deriving DecidableEq

/-- The default parameter values declared in `GenerateParameterList`. -/
def defaultParams : Params :=
  { pitch := fromMM 1
    pad_size := fromMM 0.5
    columns := 5
    rows := 5
    override := false
    pads_count := 25
    width := fromMM 6
    length := fromMM 6
    ball_size := fromMM 0.6
    margin := fromMM 0.25
    bevel := fromMM 1 }

/-- The alphabet passed by `BGAPadGridArray.NamingFunction`:
`"ABCDEFGHJKLMNPRTUVWY"`. -/
def alphaChars : List Char := "ABCDEFGHJKLMNPRTUVWY".toList

/-- Modelled from the spec: `PadArray.AlphaNameFromNumber` is not under
src/.  It maps a 1-based index to an alphabetic label over the supplied
alphabet in bijective numeration, so index 1 is the first letter, index 20
the last, index 21 the first two-letter label. -/
def alphaNameFromNumber (n : ℕ) : String :=
  let q := (n - 1) / alphaChars.length
  let r := (n - 1) % alphaChars.length
  if _h : 0 < q then
    alphaNameFromNumber q ++ String.mk [alphaChars.getD r 'A']
  else
    String.mk [alphaChars.getD r 'A']
termination_by n
decreasing_by
  have hle : (n - 1) / alphaChars.length ≤ n - 1 := Nat.div_le_self _ _
  omega

/-- `BGAPadGridArray.NamingFunction(n_x, n_y)`: the alphabetic label of row
`n_y + 1` followed by the decimal column number `n_x + 1`. -/
def namingFunction (n_x n_y : ℕ) : String :=
  alphaNameFromNumber (n_y + 1) ++ toString (n_x + 1)

/-- Modelled from the spec: the pad-centre layout of `PadArray.PadGridArray`
(not under src/): `nx × ny` pads in a rectangular grid centred on the
origin, with `px` and `py` the centre-to-centre spacing between
horizontally resp. vertically adjacent pads ("Pitch: center-to-center
spacing between adjacent pads/balls"). -/
def gridPos (nx ny : ℕ) (px py : ℚ) (i j : ℕ) : Point :=
  ⟨((i : ℚ) - ((nx : ℚ) - 1) / 2) * px, ((j : ℚ) - ((ny : ℚ) - 1) / 2) * py⟩

/-- The pad operations issued by `array.AddPadsToModule(self.draw)` for
`BGAPadGridArray(pad, cols, rows, pad_pitch, pad_pitch)`: one SMT round pad
of size `pad_size` per grid position, named by `namingFunction`. -/
def padCmds (P : Params) : List Cmd :=
  (List.range P.columns).flatMap (fun i =>
    (List.range P.rows).map (fun j =>
      Cmd.pad (gridPos P.columns P.rows P.pitch P.pitch i j)
        (namingFunction i j) P.pad_size))

/-- The effective bevel of the F_Fab box outline (`bga_wizard.py` lines
106-112): the user's bevel when it is below 1 mm, else exactly 1 mm. -/
def effBevel (P : Params) : ℚ :=
  if toMM P.bevel < 1 then P.bevel else fromMM 1

/-- `offset = pcbnew.FromMM(0.15)` (line 119). -/
def offset : ℚ := fromMM 0.15

/-- Modelled from the spec: `FootprintWizardBase.GetTextSize` (host API, not
under src/), the IPC nominal text size. -/
def textSize : ℚ := fromMM 1

/-- The corner-edge polyline drawn three times on F_SilkS (lines 123-127). -/
def edgePts (P : Params) : List Point :=
  let ssx := P.width / 2
  let ssy := P.length / 2
  let len_x := 0.5 * ssx
  let len_y := 0.5 * ssy
  [⟨ssx + offset - len_x, -ssy - offset⟩,
   ⟨ssx + offset, -ssy - offset⟩,
   ⟨ssx + offset, -ssy - offset + len_y⟩]

/-- Modelled from the spec: point mirroring done by the drawing aid's
`Polyline(..., mirrorX=vx, mirrorY=vy)` (FootprintWizardBase, not under
src/): a given `mirrorX` value reflects the x coordinate about it, a given
`mirrorY` value reflects the y coordinate about it. -/
def mirrorPt (mx my : Option ℚ) (p : Point) : Point :=
  ⟨match mx with
    | some v => 2 * v - p.x
    | none => p.x,
   match my with
    | some v => 2 * v - p.y
    | none => p.y⟩

/-- The four candidate vertices of the pin-1 marker (lines 136-141); the
local `bevel` there is the effective bevel plus `offset` (line 135). -/
def pin1Base (P : Params) : List Point :=
  let ssx := P.width / 2
  let ssy := P.length / 2
  let len_x := 0.5 * ssx
  let len_y := 0.5 * ssy
  let bevel := effBevel P + offset
  [⟨-ssx - offset + len_x, -ssy - offset⟩,
   ⟨-ssx - offset + bevel, -ssy - offset⟩,
   ⟨-ssx - offset, -ssy - offset + bevel⟩,
   ⟨-ssx - offset, -ssy - offset + len_y⟩]

/-- The pin-1 marker vertices actually passed to `draw.Polyline` (lines
143-150): drop the first vertex when `bevel > len_x`, the last when
`bevel > len_y`. -/
def pin1Verts (P : Params) : List Point :=
  let ssx := P.width / 2
  let ssy := P.length / 2
  let len_x := 0.5 * ssx
  let len_y := 0.5 * ssy
  let bevel := effBevel P + offset
  let l1 := if bevel > len_x then (pin1Base P).drop 1 else pin1Base P
  if bevel > len_y then l1.dropLast else l1

/-- Modelled from the spec: `pcbnew.PutOnGridMM` (not under src/) rounds a
length to the nearest multiple of the given grid size in millimetres — per
the call site's comment "round size to nearest 0.1mm". -/
def putOnGridMM (x gridMM : ℚ) : ℚ :=
  (round (x / fromMM gridMM) : ℤ) * fromMM gridMM

/-- The courtyard x side length: `(ssx + cmargin) * 2` put on the 0.1 mm
grid (lines 158-163). -/
def sizexOf (P : Params) : ℚ :=
  putOnGridMM ((P.width / 2 + P.margin) * 2) 0.1

/-- The courtyard y side length: `(ssy + cmargin) * 2` put on the 0.1 mm
grid (lines 159-163). -/
def sizeyOf (P : Params) : ℚ :=
  putOnGridMM ((P.length / 2 + P.margin) * 2) 0.1

/-- `GetName` (line 34). -/
def GetName : String := "BGA"

/-- `GetDescription` (line 37). -/
def GetDescription : String := "Ball Grid Array Footprint Wizard"

/-- `GetValue` (lines 65-80): the footprint name, built from the pin count
(`pads_count` when `override`, else `rows * columns`) and the millimetre
values of the geometric parameters.  Numeric rendering abstracts the host's
float formatting. -/
def GetValue (P : Params) : String :=
  let pins : ℕ := if P.override then P.pads_count else P.rows * P.columns
  "BGA-" ++ toString pins ++ "_" ++ toString (toMM P.width) ++ "x" ++
    toString (toMM P.length) ++ "mm_Layout" ++ toString P.columns ++ "x" ++
    toString P.rows ++ "_P" ++ toString (toMM P.pitch) ++ "mm_Ball" ++
    toString (toMM P.ball_size) ++ "mm_Pad" ++ toString (toMM P.pad_size) ++
    "mm_NSMD"

/-- Modelled from the spec: `FootprintWizardBase.CheckParam` with a
`min_value` bound (not under src/): it flags a parameter error, with the
given message, exactly when the parameter's millimetre value is below the
given minimum. -/
def checkParamMin (valueMM minMM : ℚ) (info : String) : List String :=
  if valueMM < minMM then [info] else []

/-- `CheckParameters` (lines 55-63): the package must be at least
`pitch * columns` wide and `pitch * rows` long, both bounds converted to
millimetres; returns the list of error messages. -/
def checkParameters (P : Params) : List String :=
  let width := toMM (P.pitch * P.columns)
  let length := toMM (P.pitch * P.rows)
  checkParamMin (toMM P.width) width
      ("Package width is too small (< " ++ toString width ++ "mm)") ++
    checkParamMin (toMM P.length) length
      ("Package length is too small (< " ++ toString length ++ "mm")

/-- `BuildThisFootprint` (lines 82-179) as the sequence of pad and drawing
operations it issues, in source order: the pad grid, the F_Fab box outline
with the effective bevel, the three corner edges and the pin-1 marker and
bevel-void circle on F_SilkS, the courtyard box on F_CrtYd drawn at 0.05 mm
line thickness (then the thickness set to `FromMM(cmargin)` as in line 169),
the value / reference / `%R` texts, and the SMD attribute. -/
def buildThisFootprint (P : Params) : List Cmd :=
  let ssx := P.width / 2
  let ssy := P.length / 2
  let ypos := ssy + textSize
  padCmds P ++
    [Cmd.boxWithDiagonalAtCorner Layer.F_Fab 0 0 (ssx * 2) (ssy * 2)
        (effBevel P),
     Cmd.polyline Layer.F_SilkS (edgePts P),
     Cmd.polyline Layer.F_SilkS ((edgePts P).map (mirrorPt none (some 0))),
     Cmd.polyline Layer.F_SilkS
       ((edgePts P).map (mirrorPt (some 0) (some 0))),
     Cmd.polyline Layer.F_SilkS (pin1Verts P),
     Cmd.circle Layer.F_SilkS (-ssx) (-ssy) (fromMM 0.2) true,
     Cmd.setLineThickness (fromMM 0.05),
     Cmd.box Layer.F_CrtYd (fromMM 0.05) 0 0 (sizexOf P) (sizeyOf P),
     Cmd.setLineThickness (fromMM P.margin),
     Cmd.value 0 ypos textSize,
     Cmd.reference 0 (-ypos) textSize,
     Cmd.text 0 0 textSize "%R",
     Cmd.setAttributes]

/-- `GetName` run against a module state: returns the name and leaves the
state unchanged (the Python method only returns a literal). -/
def runGetName (st : List Cmd) : String × List Cmd := (GetName, st)

/-- `GetDescription` run against a module state: returns the description
and leaves the state unchanged. -/
def runGetDescription (st : List Cmd) : String × List Cmd :=
  (GetDescription, st)

/-- `GetValue` run against a module state: returns the footprint name and
leaves the state unchanged (the Python method only reads parameters). -/
def runGetValue (P : Params) (st : List Cmd) : String × List Cmd :=
  (GetValue P, st)

/-- `CheckParameters` run against a module state: returns the error list
and issues no pad or drawing operation. -/
def runCheckParameters (P : Params) (st : List Cmd) :
    List String × List Cmd := (checkParameters P, st)

/-- Is a command a pad placement? -/
def isPad : Cmd → Bool
  | Cmd.pad _ _ _ => true
  | _ => false

/-- Commands that are calls into the host pad / drawing / parameter API. -/
def isHostApiCall : Cmd → Bool
  | Cmd.pad _ _ _ => true
  | Cmd.boxWithDiagonalAtCorner _ _ _ _ _ _ => true
  | Cmd.polyline _ _ => true
  | Cmd.circle _ _ _ _ _ => true
  | Cmd.setLineThickness _ => true
  | Cmd.box _ _ _ _ _ _ => true
  | Cmd.value _ _ _ => true
  | Cmd.reference _ _ _ => true
  | Cmd.text _ _ _ _ => true
  | _ => false

/-- Commands that mutate the footprint module object under construction. -/
def isModuleMutation : Cmd → Bool
  | Cmd.setAttributes => true
  | _ => false

/-- Commands that read or write persistent storage. -/
def isFileAccess : Cmd → Bool
  | Cmd.fileAccess => true
  | _ => false

/-- One top-level statement of the module `bga_wizard.py`. -/
inductive TopLevel
  | importModule (name : String)
  | classDef (name : String)
  | registerWizard (cls : String)
deriving DecidableEq

/-- Does a top-level statement register a wizard with the host? -/
def isRegister : TopLevel → Bool
  | TopLevel.registerWizard _ => true
  | _ => false

/-- How many `BGAWizard` instances a top-level statement constructs:
`BGAWizard().register()` constructs one, nothing else constructs any. -/
def constructsBGAWizard : TopLevel → ℕ
  | TopLevel.registerWizard cls => if cls = "BGAWizard" then 1 else 0
  | _ => 0

/-- The top-level statements of `bga_wizard.py`, in source order: the
imports, the two class definitions, and the final
`BGAWizard().register()`. -/
def moduleBody : List TopLevel :=
  [TopLevel.importModule "__future__.division",
   TopLevel.importModule "pcbnew",
   TopLevel.importModule "FootprintWizardBase",
   TopLevel.importModule "PadArray",
   TopLevel.classDef "BGAPadGridArray",
   TopLevel.classDef "BGAWizard",
   TopLevel.registerWizard "BGAWizard"]

/-- Every element of `padCmds` is a pad at a grid position. -/
theorem mem_padCmds {P : Params} {c : Cmd} (h : c ∈ padCmds P) :
    ∃ i j : ℕ, i < P.columns ∧ j < P.rows ∧
      c = Cmd.pad (gridPos P.columns P.rows P.pitch P.pitch i j)
            (namingFunction i j) P.pad_size := by
  rcases List.mem_flatMap.mp h with ⟨i, hi, hci⟩
  rcases List.mem_map.mp hci with ⟨j, hj, rfl⟩
  exact ⟨i, j, List.mem_range.mp hi, List.mem_range.mp hj, rfl⟩

/-- The pad grid issues one pad per grid position. -/
theorem padCmds_length (P : Params) :
    (padCmds P).length = P.columns * P.rows := by
  simp [padCmds, List.length_flatMap, Function.comp_def]

/-- The trace of `BuildThisFootprint` contains exactly `columns * rows`
pads. -/
theorem countP_isPad_build (P : Params) :
    (buildThisFootprint P).countP isPad = P.columns * P.rows := by
  rw [buildThisFootprint, List.countP_append]
  have h1 : (padCmds P).countP isPad = (padCmds P).length := by
    rw [List.countP_eq_length]
    intro c hc
    rcases mem_padCmds hc with ⟨i, j, _, _, rfl⟩
    rfl
  rw [h1, padCmds_length]
  simp [List.countP_cons, isPad]

/-- Claim C8: importing the module constructs exactly one `BGAWizard`
instance and calls `register()` on it exactly once, as the final top-level
statement; nothing else in the module registers anything. -/
theorem bga_C8 :
    moduleBody.countP isRegister = 1
    ∧ (moduleBody.map constructsBGAWizard).sum = 1
    ∧ moduleBody.getLast? = some (TopLevel.registerWizard "BGAWizard") := by
  decide

/-- Claim C4: `NamingFunction` returns the alphabetic row label of
`n_y + 1` over the 20-letter alphabet `"ABCDEFGHJKLMNPRTUVWY"` (which omits
I, O, Q, S, X and Z) followed by the decimal column number `n_x + 1`, and
the pad at grid position (0, 0) is named "A1". -/
theorem bga_C4 :
    (∀ n_x n_y : ℕ, namingFunction n_x n_y
        = alphaNameFromNumber (n_y + 1) ++ toString (n_x + 1))
    ∧ alphaChars.length = 20
    ∧ (['I', 'O', 'Q', 'S', 'X', 'Z'].all
        fun c => !(alphaChars.contains c)) = true
    ∧ namingFunction 0 0 = "A1" := by
  have h1 : alphaNameFromNumber 1 = "A" := by
    rw [alphaNameFromNumber]
    rfl
  refine ⟨fun _ _ => rfl, rfl, by decide, ?_⟩
  show alphaNameFromNumber 1 ++ toString 1 = "A1"
  rw [h1]
  rfl

/-- Claim C5: `CheckParameters` reports a parameter error if and only if
the package width is below `pitch * columns` or the package length is below
`pitch * rows` (the bounds being converted to millimetres changes neither
comparison). -/
theorem bga_C5 (P : Params) :
    checkParameters P ≠ [] ↔
      (P.width < P.pitch * P.columns ∨ P.length < P.pitch * P.rows) := by
  have key : ∀ a b : ℚ, a / 1000000 < b / 1000000 ↔ a < b := fun a b =>
    div_lt_div_iff_of_pos_right (by norm_num)
  simp only [checkParameters, checkParamMin, toMM, key]
  by_cases h1 : P.width < P.pitch * P.columns <;>
    by_cases h2 : P.length < P.pitch * P.rows <;>
      simp [h1, h2]

/-- Claim C6: the bevel used for the F_Fab box outline is the user's bevel
parameter when that is strictly below 1 mm and exactly 1 mm otherwise, i.e.
`min(bevel, 1 mm)`; it never exceeds 1 mm. -/
theorem bga_C6 (P : Params) :
    Cmd.boxWithDiagonalAtCorner Layer.F_Fab 0 0 (P.width / 2 * 2)
        (P.length / 2 * 2) (effBevel P) ∈ buildThisFootprint P
    ∧ effBevel P = min P.bevel (fromMM 1)
    ∧ effBevel P ≤ fromMM 1 := by
  have hb : toMM P.bevel < 1 ↔ P.bevel < fromMM 1 := by
    rw [toMM, fromMM, div_lt_one (by norm_num : (0:ℚ) < 1000000)]
    norm_num
  refine ⟨by simp [buildThisFootprint], ?_, ?_⟩
  · rw [effBevel]
    by_cases h : toMM P.bevel < 1
    · rw [if_pos h, min_eq_left (le_of_lt (hb.mp h))]
    · rw [if_neg h, min_eq_right]
      exact le_of_not_lt fun hc => h (hb.mpr hc)
  · rw [effBevel]
    by_cases h : toMM P.bevel < 1
    · rw [if_pos h]
      exact le_of_lt (hb.mp h)
    · rw [if_neg h]

/-- Claim C7: the pin-1 marker polyline is built from four vertices; the
first is removed exactly when the effective bevel plus the 0.15 mm offset
exceeds a quarter of the package width, the last exactly when it exceeds a
quarter of the package length; the list passed to `draw.Polyline` always
keeps at least two vertices. -/
theorem bga_C7 (P : Params) :
    (pin1Base P).length = 4
    ∧ (pin1Verts P).length =
        4 - (if P.width / 4 < effBevel P + offset then 1 else 0)
          - (if P.length / 4 < effBevel P + offset then 1 else 0)
    ∧ 2 ≤ (pin1Verts P).length
    ∧ Cmd.polyline Layer.F_SilkS (pin1Verts P) ∈ buildThisFootprint P := by
  have hx : (0.5 : ℚ) * (P.width / 2) = P.width / 4 := by ring
  have hy : (0.5 : ℚ) * (P.length / 2) = P.length / 4 := by ring
  have hbase : (pin1Base P).length = 4 := rfl
  refine ⟨rfl, ?_, ?_, ?_⟩
  · simp only [pin1Verts, hx, hy]
    by_cases h1 : P.width / 4 < effBevel P + offset <;>
      by_cases h2 : P.length / 4 < effBevel P + offset <;>
        simp [h1, h2, List.length_dropLast, List.length_drop, hbase]
  · simp only [pin1Verts, hx, hy]
    by_cases h1 : P.width / 4 < effBevel P + offset <;>
      by_cases h2 : P.length / 4 < effBevel P + offset <;>
        simp [h1, h2, List.length_dropLast, List.length_drop, hbase]
  · simp [buildThisFootprint]

/-- Claim C9: every run of `BuildThisFootprint` adds the pad array
(`columns * rows` pads), draws the three corner edges, the pin-1 marker and
the filled 0.2 mm circle at the pin-1 corner on F_SilkS, the courtyard box
on F_CrtYd, the package outline on F_Fab, places value and reference
symmetrically at `y = ±(length/2 + text size)`, and sets the SMD
attribute. -/
theorem bga_C9 (P : Params) :
    (buildThisFootprint P).countP isPad = P.columns * P.rows
    ∧ Cmd.polyline Layer.F_SilkS (edgePts P) ∈ buildThisFootprint P
    ∧ Cmd.polyline Layer.F_SilkS ((edgePts P).map (mirrorPt none (some 0)))
        ∈ buildThisFootprint P
    ∧ Cmd.polyline Layer.F_SilkS
        ((edgePts P).map (mirrorPt (some 0) (some 0)))
        ∈ buildThisFootprint P
    ∧ Cmd.polyline Layer.F_SilkS (pin1Verts P) ∈ buildThisFootprint P
    ∧ Cmd.circle Layer.F_SilkS (-(P.width / 2)) (-(P.length / 2))
        (fromMM 0.2) true ∈ buildThisFootprint P
    ∧ Cmd.box Layer.F_CrtYd (fromMM 0.05) 0 0 (sizexOf P) (sizeyOf P)
        ∈ buildThisFootprint P
    ∧ Cmd.boxWithDiagonalAtCorner Layer.F_Fab 0 0 (P.width / 2 * 2)
        (P.length / 2 * 2) (effBevel P) ∈ buildThisFootprint P
    ∧ Cmd.value 0 (P.length / 2 + textSize) textSize ∈ buildThisFootprint P
    ∧ Cmd.reference 0 (-(P.length / 2 + textSize)) textSize
        ∈ buildThisFootprint P
    ∧ Cmd.setAttributes ∈ buildThisFootprint P := by
  refine ⟨countP_isPad_build P, ?_, ?_, ?_, ?_, ?_, ?_, ?_, ?_, ?_, ?_⟩ <;>
    simp [buildThisFootprint]

/-- Claim C10: no operation reads or writes persistent storage; every
command issued by `BuildThisFootprint` is a host pad / drawing / parameter
API call or a mutation of the footprint module under construction, and
`GetName`, `GetDescription`, `GetValue` (and `CheckParameters`) leave the
module state unchanged. -/
theorem bga_C10 (P : Params) :
    ((buildThisFootprint P).all
        fun c => isHostApiCall c || isModuleMutation c) = true
    ∧ ((buildThisFootprint P).all fun c => !(isFileAccess c)) = true
    ∧ runGetName (buildThisFootprint P) = (GetName, buildThisFootprint P)
    ∧ runGetDescription (buildThisFootprint P)
        = (GetDescription, buildThisFootprint P)
    ∧ runGetValue P (buildThisFootprint P)
        = (GetValue P, buildThisFootprint P)
    ∧ runCheckParameters P (buildThisFootprint P)
        = (checkParameters P, buildThisFootprint P) := by
  have hall : ∀ c ∈ buildThisFootprint P,
      (isHostApiCall c || isModuleMutation c) = true
        ∧ isFileAccess c = false := by
    intro c hc
    simp only [buildThisFootprint] at hc
    rcases List.mem_append.mp hc with h | h
    · rcases mem_padCmds h with ⟨i, j, _, _, rfl⟩
      exact ⟨rfl, rfl⟩
    · simp only [List.mem_cons, List.not_mem_nil, or_false] at h
      rcases h with rfl | rfl | rfl | rfl | rfl | rfl | rfl | rfl | rfl |
        rfl | rfl | rfl | rfl <;> exact ⟨rfl, rfl⟩
  refine ⟨?_, ?_, rfl, rfl, rfl, rfl⟩
  · rw [List.all_eq_true]
    intro c hc
    exact (hall c hc).1
  · rw [List.all_eq_true]
    intro c hc
    simp [(hall c hc).2]

/-- Claim C1: `BuildThisFootprint` creates one pad array of `rows * columns`
pads, issued exactly at the rectangular grid positions with the single
pitch parameter as both the horizontal and the vertical center-to-center
spacing. -/
theorem bga_C1 (P : Params) (_hc : 1 ≤ P.columns) (_hr : 1 ≤ P.rows) :
    (buildThisFootprint P).countP isPad = P.rows * P.columns
    ∧ padCmds P = (List.range P.columns).flatMap (fun i =>
        (List.range P.rows).map (fun j =>
          Cmd.pad (gridPos P.columns P.rows P.pitch P.pitch i j)
            (namingFunction i j) P.pad_size))
    ∧ (∀ i j : ℕ,
        (gridPos P.columns P.rows P.pitch P.pitch (i + 1) j).x
            = (gridPos P.columns P.rows P.pitch P.pitch i j).x + P.pitch
          ∧ (gridPos P.columns P.rows P.pitch P.pitch (i + 1) j).y
            = (gridPos P.columns P.rows P.pitch P.pitch i j).y)
    ∧ (∀ i j : ℕ,
        (gridPos P.columns P.rows P.pitch P.pitch i (j + 1)).y
            = (gridPos P.columns P.rows P.pitch P.pitch i j).y + P.pitch
          ∧ (gridPos P.columns P.rows P.pitch P.pitch i (j + 1)).x
            = (gridPos P.columns P.rows P.pitch P.pitch i j).x) := by
  refine ⟨by rw [countP_isPad_build P, Nat.mul_comm], rfl, ?_, ?_⟩
  · intro i j
    constructor <;> simp only [gridPos] <;> push_cast <;> ring
  · intro i j
    constructor <;> simp only [gridPos] <;> push_cast <;> ring

/-- Witness for C1 at the default parameters (5 columns, 5 rows). -/
theorem bga_C1_witness :
    1 ≤ defaultParams.columns ∧ 1 ≤ defaultParams.rows
      ∧ (buildThisFootprint defaultParams).countP isPad
          = defaultParams.rows * defaultParams.columns :=
  ⟨by decide, by decide, (bga_C1 defaultParams (by decide) (by decide)).1⟩

/-- Claim C2: `GetValue` and `BuildThisFootprint` are deterministic
functions of the wizard's parameters: equal parameter assignments give the
identical footprint name and the identical sequence of pad and drawing
operations. -/
theorem bga_C2 (P Q : Params) (h : P = Q) :
    GetValue P = GetValue Q
      ∧ buildThisFootprint P = buildThisFootprint Q := by
  subst h
  exact ⟨rfl, rfl⟩

/-- Witness for C2 at the default parameters. -/
theorem bga_C2_witness :
    defaultParams = defaultParams
      ∧ (GetValue defaultParams = GetValue defaultParams
          ∧ buildThisFootprint defaultParams
              = buildThisFootprint defaultParams) :=
  ⟨rfl, bga_C2 defaultParams defaultParams rfl⟩

/-- Putting a length on a positive grid moves it by at most half a grid
step. -/
theorem putOnGridMM_close (x : ℚ) {g : ℚ} (hg : 0 < g) :
    |putOnGridMM x g - x| ≤ fromMM g / 2 := by
  have hG : (0 : ℚ) < fromMM g := by
    rw [fromMM]
    exact mul_pos hg (by norm_num)
  have hsplit : putOnGridMM x g - x
      = ((round (x / fromMM g) : ℚ) - x / fromMM g) * fromMM g := by
    rw [putOnGridMM, sub_mul, div_mul_cancel₀ _ (ne_of_gt hG)]
  rw [hsplit, abs_mul, abs_of_pos hG]
  have h1 : |(round (x / fromMM g) : ℚ) - x / fromMM g| ≤ 1 / 2 := by
    rw [abs_sub_comm]
    exact abs_sub_round _
  calc |(round (x / fromMM g) : ℚ) - x / fromMM g| * fromMM g
      ≤ 1 / 2 * fromMM g := mul_le_mul_of_nonneg_right h1 hG.le
    _ = fromMM g / 2 := by ring

/-- Claim C3: the courtyard rectangle on F_CrtYd is centred at the origin
with side lengths `width + 2 * margin` and `length + 2 * margin` rounded to
the nearest 0.1 mm; the rounding moves each side by at most 0.05 mm, so for
any margin of at least 0.2 mm the courtyard strictly contains the
width-by-length package box. -/
theorem bga_C3 (P : Params) (hm : fromMM 0.2 ≤ P.margin) :
    Cmd.box Layer.F_CrtYd (fromMM 0.05) 0 0 (sizexOf P) (sizeyOf P)
        ∈ buildThisFootprint P
    ∧ sizexOf P = putOnGridMM (P.width + 2 * P.margin) 0.1
    ∧ sizeyOf P = putOnGridMM (P.length + 2 * P.margin) 0.1
    ∧ |sizexOf P - (P.width + 2 * P.margin)| ≤ fromMM 0.05
    ∧ |sizeyOf P - (P.length + 2 * P.margin)| ≤ fromMM 0.05
    ∧ P.width < sizexOf P ∧ P.length < sizeyOf P := by
  have e1 : (P.width / 2 + P.margin) * 2 = P.width + 2 * P.margin := by ring
  have e2 : (P.length / 2 + P.margin) * 2 = P.length + 2 * P.margin := by
    ring
  have hhalf : fromMM (0.1 : ℚ) / 2 = fromMM 0.05 := by norm_num [fromMM]
  have b1 : |sizexOf P - (P.width + 2 * P.margin)| ≤ fromMM 0.05 := by
    rw [sizexOf, e1, ← hhalf]
    exact putOnGridMM_close _ (by norm_num)
  have b2 : |sizeyOf P - (P.length + 2 * P.margin)| ≤ fromMM 0.05 := by
    rw [sizeyOf, e2, ← hhalf]
    exact putOnGridMM_close _ (by norm_num)
  have hm' : (200000 : ℚ) ≤ P.margin := by
    have h := hm
    rw [fromMM] at h
    norm_num at h
    exact h
  have h005 : fromMM (0.05 : ℚ) = 50000 := by norm_num [fromMM]
  have hx : P.width < sizexOf P := by
    have hb := (abs_le.mp b1).1
    rw [h005] at hb
    linarith
  have hy : P.length < sizeyOf P := by
    have hb := (abs_le.mp b2).1
    rw [h005] at hb
    linarith
  exact ⟨by simp [buildThisFootprint], by rw [sizexOf, e1],
    by rw [sizeyOf, e2], b1, b2, hx, hy⟩

/-- Witness for C3 at the default parameters (margin 0.25 mm ≥ 0.2 mm). -/
theorem bga_C3_witness :
    fromMM 0.2 ≤ defaultParams.margin
      ∧ defaultParams.width < sizexOf defaultParams :=
  ⟨by norm_num [fromMM, defaultParams],
    (bga_C3 defaultParams
      (by norm_num [fromMM, defaultParams])).2.2.2.2.2.1⟩
